import Mathlib

/-!
Shallow embedding of `src/single-linked-list/single-linked-list.h`
(`template <typename Type> class SingleLinkedList`).

Modelling conventions:

* The list object owns a sentinel node `head_` (holding no value) whose
  `next_node` starts the chain of real nodes, plus a counter `size_` of type
  `size_t`.  We model the object state as a structure with
  `nodes : List α` — the values stored in the chain hanging off
  `head_.next_node`, in link order — and `size_ : Nat` for the counter.
* A `BasicIterator` holds a `Node*`.  We model an iterator *into a given
  state* as `Option Nat`: `none` is a null node pointer (the `end()`
  iterator); `some 0` is a pointer to the sentinel `head_` itself (the
  `before_begin()` iterator); `some j` with `j ≥ 1` is a pointer to the
  j-th real node of the chain.  `some k` references an existing node of the
  state `s` exactly when `k ≤ s.nodes.length`.
* Fallible steps return `Option`: `none` covers both a failing `assert`
  (the source is compiled with assertions active) and a dereference of a
  null or invalid node pointer (undefined behaviour).
* `size_t` arithmetic: the counter only moves by `++`/`--`.  `Nat`
  truncated subtraction is used for `--`; the wrap-around of unsigned
  underflow is not modelled, and no theorem below depends on a state where
  `--size_` runs with `size_ = 0`.
-/

structure SingleLinkedList (α : Type) where
  nodes : List α
  size_ : Nat
deriving DecidableEq, Repr

namespace SingleLinkedList

/-- Source `GetSize` (line 223): returns `size_`. -/
def GetSize (s : SingleLinkedList α) : Nat :=
  s.size_

/-- Source `IsEmpty` (line 228): returns `size_ == 0`. -/
def IsEmpty (s : SingleLinkedList α) : Bool :=
  s.size_ == 0

/-- Source default constructor (line 124): empty chain, `size_ = 0`. -/
def mkEmpty : SingleLinkedList α :=
  ⟨[], 0⟩

/-- Source `before_begin` (line 252): `Iterator{ &head_ }`, the sentinel. -/
def before_begin (_s : SingleLinkedList α) : Option Nat :=
  some 0

/-- Source `PushFront` (lines 207-210):
`head_.next_node = new Node(value, head_.next_node); ++size_;`. -/
def PushFront (s : SingleLinkedList α) (value : α) : SingleLinkedList α :=
  ⟨value :: s.nodes, s.size_ + 1⟩

/-- Loop body of source `Clear` (lines 213-220): while the chain is
non-empty, unlink and free the first node and decrement `size_`. -/
def clearLoop : List α → Nat → Nat
  | [], n => n
  | _ :: rest, n => clearLoop rest (n - 1)

/-- Source `Clear` (lines 213-220): frees every chain node one by one,
decrementing `size_` at each step; afterwards `head_.next_node == nullptr`. -/
def Clear (s : SingleLinkedList α) : SingleLinkedList α :=
  ⟨[], clearLoop s.nodes s.size_⟩

/-- Source `PopFront` (lines 280-291): `assert(!IsEmpty())`, then unlink and
free the first chain node (dereferencing `head_.next_node`, undefined if the
chain is empty) and `--size_`. -/
def PopFront (s : SingleLinkedList α) : Option (SingleLinkedList α) :=
  if s.size_ = 0 then
    none
  else
    match s.nodes with
    | [] => none
    | _ :: rest => some ⟨rest, s.size_ - 1⟩

/-- Source `InsertAfter` (lines 273-278):
`assert(pos != end()); pos.node_->next_node = new Node(value, nullptr);
++size_; return Iterator{ pos.node_->next_node };`.
Note the new node's `next_node` is `nullptr`, so the chain that previously
followed `pos` is detached (leaked), not spliced back.  With `pos` at
position `k`, the chain becomes the first `k` old values followed by just
`value`, and the returned iterator points at the new node, position `k+1`. -/
def InsertAfter (s : SingleLinkedList α) (pos : Option Nat) (value : α) :
    Option (SingleLinkedList α × Option Nat) :=
  match pos with
  | none => none
  | some k =>
    if k ≤ s.nodes.length then
      some (⟨s.nodes.take k ++ [value], s.size_ + 1⟩, some (k + 1))
    else
      none

/-- Source `EraseAfter` (lines 297-315): `assert(!IsEmpty());
assert(pos.node_ != nullptr); auto temp = pos.node_->next_node->next_node;
delete pos.node_->next_node; pos.node_->next_node = temp; --size_;
return Iterator{ pos.node_->next_node };`.
The dereference `pos.node_->next_node->next_node` is undefined when `pos`
has no successor.  With `pos` at position `k`, the value at chain index `k`
(0-based) is removed and the returned iterator holds the relinked
`pos.node_->next_node`, i.e. the node now at position `k+1`, or null. -/
def EraseAfter (s : SingleLinkedList α) (pos : Option Nat) :
    Option (SingleLinkedList α × Option Nat) :=
  if s.size_ = 0 then
    none
  else
    match pos with
    | none => none
    | some k =>
      if k ≤ s.nodes.length then
        if k < s.nodes.length then
          let rest := s.nodes.take k ++ s.nodes.drop (k + 1)
          some (⟨rest, s.size_ - 1⟩, if k < rest.length then some (k + 1) else none)
        else
          none
      else
        none

/-- Source `AddToHead` (lines 139-153): builds a scratch list `tmp` by
appending each value of the input range to the tail of `tmp`'s chain,
incrementing `tmp.size_` per node, then `swap(tmp)`; the old own chain goes
to `tmp` and is destroyed.  The resulting state holds exactly the copied
values with `size_` equal to their count. -/
def AddToHead (_s : SingleLinkedList α) (vals : List α) : SingleLinkedList α :=
  ⟨vals, vals.length⟩

/-- Source copy constructor (lines 132-137): the member initializer sets
`size_(other.size_)` while `head_.next_node` starts null; then
`assert(size_ == 0 && head_.next_node == nullptr)` runs — it passes exactly
when `other.size_ = 0` — and finally `AddToHead(other.begin(), other.end())`
copies `other`'s chain. -/
def CopyConstruct (other : SingleLinkedList α) : Option (SingleLinkedList α) :=
  if other.size_ = 0 then
    some (AddToHead ⟨[], other.size_⟩ other.nodes)
  else
    none

/-- Source free `operator<` (lines 340-343):
`std::lexicographical_compare(lhs.begin(), lhs.end(), rhs.begin(), rhs.end())`
over the element chains, with `lt` the element type's `operator<`. -/
def lexLt (lt : α → α → Bool) : List α → List α → Bool
  | _, [] => false
  | [], _ :: _ => true
  | a :: as, b :: bs => if lt a b then true else if lt b a then false else lexLt lt as bs

/-- Source free `operator<` (lines 340-343) on list states. -/
def opLt (lt : α → α → Bool) (lhs rhs : SingleLinkedList α) : Bool :=
  lexLt lt lhs.nodes rhs.nodes

/-- Source free `operator>=` (lines 357-360), exactly as written:
`return !(lhs < lhs);` — the right operand `rhs` is never consulted. -/
def opGe (lt : α → α → Bool) (lhs _rhs : SingleLinkedList α) : Bool :=
  !(opLt lt lhs lhs)

/-- Source three-argument `std::equal(first1, last1, first2)` as used by
`operator==`: walks the first range, comparing element-wise against the
second range; reading the second range past its end dereferences a null
node pointer (undefined behaviour, modelled `none`). -/
def stdEqual [DecidableEq α] : List α → List α → Option Bool
  | [], _ => some true
  | _ :: _, [] => none
  | a :: as, b :: bs => if a = b then stdEqual as bs else some false

/-- Modelled intent of source free `operator==` (lines 330-333).  The source
line `return (lhs.GetSize() == rhs.GetSize()) () && &&std::equal(...)` is
ill-formed C++ (a stray call `()` and a stray `&&`); the evident intended
expression `(lhs.GetSize() == rhs.GetSize()) && std::equal(lhs.cbegin(),
lhs.cend(), rhs.cbegin())` is modelled, with the short-circuit of `&&`. -/
def opEq [DecidableEq α] (lhs rhs : SingleLinkedList α) : Option Bool :=
  if lhs.GetSize = rhs.GetSize then stdEqual lhs.nodes rhs.nodes else some false

/-- Source free `operator!=` (lines 335-338): `return !(lhs == rhs);`
(undefined whenever `==` is). -/
def opNe [DecidableEq α] (lhs rhs : SingleLinkedList α) : Option Bool :=
  (opEq lhs rhs).map (fun b => !b)

/-! Helper lemmas. -/

/-- The `Clear` loop decrements `size_` once per freed node. -/
theorem clearLoop_eq (l : List α) : ∀ n : Nat, clearLoop l n = n - l.length := by
  induction l with
  | nil => intro n; simp [clearLoop]
  | cons a rest ih =>
    intro n
    simp only [clearLoop, ih, List.length_cons]
    omega

/-- On ranges of equal length, the three-argument `std::equal` terminates and
decides element-wise equality. -/
theorem stdEqual_of_length_eq [DecidableEq α] :
    ∀ xs ys : List α, xs.length = ys.length → stdEqual xs ys = some (decide (xs = ys)) := by
  intro xs
  induction xs with
  | nil =>
    intro ys h
    cases ys with
    | nil => simp [stdEqual]
    | cons b bs => simp at h
  | cons a as ih =>
    intro ys h
    cases ys with
    | nil => simp at h
    | cons b bs =>
      simp only [List.length_cons, Nat.add_right_cancel_iff] at h
      by_cases hab : a = b
      · simp [stdEqual, hab, ih bs h]
      · simp [stdEqual, hab]

/-! Claim theorems. -/

/-- C1: the claim says `InsertAfter(pos, value)` splices the new node in,
leaving the old suffix intact.  The code sets the new node's `next_node` to
`nullptr`, detaching the suffix: on the list `[1, 2]` with `pos =
before_begin()`, inserting `5` leaves the chain `[5]` (with `size_ = 3`),
not the claimed `[5, 1, 2]`. -/
theorem InsertAfter_drops_suffix :
    InsertAfter (⟨[1, 2], 2⟩ : SingleLinkedList ℕ)
        (before_begin (⟨[1, 2], 2⟩ : SingleLinkedList ℕ)) 5 =
      some (⟨[5], 3⟩, some 1) ∧
    (⟨[5], 3⟩ : SingleLinkedList ℕ).nodes ≠ [5, 1, 2] := by
  exact ⟨rfl, by decide⟩

/-- C2: the claim says `A >= B` is the negation of `A < B`.  The code
computes `!(lhs < lhs)`, never consulting `rhs`: with `A = []` and
`B = [1]`, the code yields `true` while `!(A < B)` is `false`. -/
theorem opGe_ignores_rhs :
    opGe (fun a b : ℕ => decide (a < b)) ⟨[], 0⟩ ⟨[1], 1⟩ = true ∧
    (!(opLt (fun a b : ℕ => decide (a < b)) ⟨[], 0⟩ ⟨[1], 1⟩)) = false := by
  exact ⟨rfl, rfl⟩

/-- C3: the claim says every public operation keeps `GetSize` equal to the
number of reachable nodes.  Starting from the default-constructed list and
applying `PushFront 1`, `PushFront 2`, `InsertAfter(before_begin(), 5)` —
each with its precondition satisfied — produces `size_ = 3` with a single
reachable node `[5]`. -/
theorem size_count_invariant_violated :
    InsertAfter (PushFront (PushFront (mkEmpty : SingleLinkedList ℕ) 1) 2)
        (before_begin (PushFront (PushFront (mkEmpty : SingleLinkedList ℕ) 1) 2)) 5 =
      some (⟨[5], 3⟩, some 1) ∧
    GetSize (⟨[5], 3⟩ : SingleLinkedList ℕ) ≠ (⟨[5], 3⟩ : SingleLinkedList ℕ).nodes.length := by
  exact ⟨rfl, by decide⟩

/-- C4: for the modelled intent of the (ill-formed) `operator==`, two lists
in valid states compare equal exactly when their counts agree and their
element sequences agree, and `operator!=` is the logical negation. -/
theorem opEq_iff_sizes_and_nodes [DecidableEq α] (A B : SingleLinkedList α)
    (hA : A.size_ = A.nodes.length) (hB : B.size_ = B.nodes.length) :
    (opEq A B = some true ↔ A.GetSize = B.GetSize ∧ A.nodes = B.nodes) ∧
    (opNe A B = some true ↔ ¬(A.GetSize = B.GetSize ∧ A.nodes = B.nodes)) := by
  have key : opEq A B = some (decide (A.GetSize = B.GetSize ∧ A.nodes = B.nodes)) := by
    unfold opEq GetSize
    by_cases h : A.size_ = B.size_
    · have hlen : A.nodes.length = B.nodes.length := by omega
      rw [if_pos h, stdEqual_of_length_eq A.nodes B.nodes hlen]
      simp [h]
    · rw [if_neg h]
      simp [h]
  constructor
  · rw [key]
    simp
  · unfold opNe
    rw [key]
    simp
    tauto

/-- C4 witness: the theorem applied at `A = ⟨[1, 2], 2⟩`, `B = ⟨[1, 3], 2⟩`. -/
theorem opEq_iff_sizes_and_nodes_witness :
    ((⟨[1, 2], 2⟩ : SingleLinkedList ℕ).size_ = (⟨[1, 2], 2⟩ : SingleLinkedList ℕ).nodes.length) ∧
    ((⟨[1, 3], 2⟩ : SingleLinkedList ℕ).size_ = (⟨[1, 3], 2⟩ : SingleLinkedList ℕ).nodes.length) ∧
    ((opEq (⟨[1, 2], 2⟩ : SingleLinkedList ℕ) ⟨[1, 3], 2⟩ = some true ↔
        GetSize (⟨[1, 2], 2⟩ : SingleLinkedList ℕ) = GetSize (⟨[1, 3], 2⟩ : SingleLinkedList ℕ) ∧
          (⟨[1, 2], 2⟩ : SingleLinkedList ℕ).nodes = (⟨[1, 3], 2⟩ : SingleLinkedList ℕ).nodes) ∧
      (opNe (⟨[1, 2], 2⟩ : SingleLinkedList ℕ) ⟨[1, 3], 2⟩ = some true ↔
        ¬(GetSize (⟨[1, 2], 2⟩ : SingleLinkedList ℕ) = GetSize (⟨[1, 3], 2⟩ : SingleLinkedList ℕ) ∧
          (⟨[1, 2], 2⟩ : SingleLinkedList ℕ).nodes = (⟨[1, 3], 2⟩ : SingleLinkedList ℕ).nodes))) :=
  ⟨rfl, rfl, opEq_iff_sizes_and_nodes ⟨[1, 2], 2⟩ ⟨[1, 3], 2⟩ rfl rfl⟩

/-- C5: the claim says `InsertAfter(before_begin(), v)` is equivalent to
`PushFront(v)` on every list.  Because the code drops the suffix, on the
non-empty list `[1]` inserting `5` at `before_begin()` yields `⟨[5], 2⟩`
while `PushFront 5` yields `⟨[5, 1], 2⟩`. -/
theorem insertAfter_before_begin_ne_pushFront :
    InsertAfter (⟨[1], 1⟩ : SingleLinkedList ℕ)
        (before_begin (⟨[1], 1⟩ : SingleLinkedList ℕ)) 5 =
      some (⟨[5], 2⟩, some 1) ∧
    PushFront (⟨[1], 1⟩ : SingleLinkedList ℕ) 5 = ⟨[5, 1], 2⟩ ∧
    (⟨[5], 2⟩ : SingleLinkedList ℕ) ≠ ⟨[5, 1], 2⟩ := by
  exact ⟨rfl, rfl, by decide⟩

/-- C6: `PushFront v` followed by `PopFront` restores the original state
(both the element sequence and the stored count), for every list state. -/
theorem popFront_pushFront (s : SingleLinkedList α) (v : α) :
    PopFront (PushFront s v) = some s := by
  obtain ⟨nodes, size⟩ := s
  simp [PushFront, PopFront]

/-- C7: with the list non-empty and `pos` (position `k`) having a successor
at chain index `k`, `EraseAfter` removes exactly that element, relinks `pos`
to its successor, decrements the count by one, and returns an iterator
referencing the node now following `pos` (position `k + 1`, or `end()` when
none follows). -/
theorem eraseAfter_removes_successor (s : SingleLinkedList α) (k : Nat)
    (h1 : s.size_ ≠ 0) (h2 : k < s.nodes.length) :
    EraseAfter s (some k) =
      some (⟨s.nodes.take k ++ s.nodes.drop (k + 1), s.size_ - 1⟩,
        if k + 1 < s.nodes.length then some (k + 1) else none) := by
  have hiff : (k < (s.nodes.take k ++ s.nodes.drop (k + 1)).length) =
      (k + 1 < s.nodes.length) := by
    apply propext
    simp only [List.length_append, List.length_take, List.length_drop]
    omega
  simp only [EraseAfter, if_neg h1, if_pos (Nat.le_of_lt h2), if_pos h2, hiff]

/-- C7 witness: the theorem applied at the list `[1, 2, 3]` with `k = 1`. -/
theorem eraseAfter_removes_successor_witness :
    (⟨[1, 2, 3], 3⟩ : SingleLinkedList ℕ).size_ ≠ 0 ∧
    1 < (⟨[1, 2, 3], 3⟩ : SingleLinkedList ℕ).nodes.length ∧
    EraseAfter (⟨[1, 2, 3], 3⟩ : SingleLinkedList ℕ) (some 1) =
      some (⟨[1, 3], 2⟩, some 2) :=
  ⟨by decide, by decide, by
    simpa using eraseAfter_removes_successor (⟨[1, 2, 3], 3⟩ : SingleLinkedList ℕ) 1
      (by decide) (by decide)⟩

/-- C8: the claim says copy construction succeeds for every source list.
The copy constructor initializes `size_(other.size_)` and then asserts
`size_ == 0`, so it aborts for every non-empty source: copying `⟨[1], 1⟩`
fails, while copying the empty list succeeds. -/
theorem copyConstruct_fails_nonempty :
    CopyConstruct (⟨[1], 1⟩ : SingleLinkedList ℕ) = none ∧
    CopyConstruct (⟨[], 0⟩ : SingleLinkedList ℕ) = some ⟨[], 0⟩ := by
  exact ⟨rfl, rfl⟩

/-- C9: on any valid list state (`size_` equal to the chain length),
`Clear` leaves the list empty with count `0`, and on an already-empty list
`Clear` is a no-op. -/
theorem clear_empties (s : SingleLinkedList α) (h : s.size_ = s.nodes.length) :
    IsEmpty (Clear s) = true ∧ GetSize (Clear s) = 0 ∧
      (IsEmpty s = true → Clear s = s) := by
  obtain ⟨nodes, size⟩ := s
  simp only [IsEmpty, GetSize, Clear, clearLoop_eq] at *
  refine ⟨by simp [h], by simp [h], ?_⟩
  intro hemp
  simp only [beq_iff_eq] at hemp
  subst hemp
  have : nodes = [] := by
    cases nodes with
    | nil => rfl
    | cons a rest => simp at h
  subst this
  rfl

/-- C9 witness: the theorem applied at the list `[5]` with count `1`. -/
theorem clear_empties_witness :
    ((⟨[5], 1⟩ : SingleLinkedList ℕ).size_ = (⟨[5], 1⟩ : SingleLinkedList ℕ).nodes.length) ∧
    (IsEmpty (Clear (⟨[5], 1⟩ : SingleLinkedList ℕ)) = true ∧
      GetSize (Clear (⟨[5], 1⟩ : SingleLinkedList ℕ)) = 0 ∧
      (IsEmpty (⟨[5], 1⟩ : SingleLinkedList ℕ) = true →
        Clear (⟨[5], 1⟩ : SingleLinkedList ℕ) = ⟨[5], 1⟩)) :=
  ⟨rfl, clear_empties ⟨[5], 1⟩ rfl⟩

/-- C10: on every non-empty list state, `EraseAfter(before_begin())`
produces the same resulting state (element sequence and count) as
`PopFront()`: both remove exactly the first real element. -/
theorem eraseAfter_before_begin_eq_popFront (s : SingleLinkedList α)
    (h1 : s.size_ ≠ 0) (h2 : s.nodes ≠ []) :
    ∃ p : SingleLinkedList α × Option Nat,
      EraseAfter s (before_begin s) = some p ∧ PopFront s = some p.1 := by
  obtain ⟨nodes, size⟩ := s
  cases nodes with
  | nil => exact absurd rfl h2
  | cons a rest =>
    refine ⟨(⟨rest, size - 1⟩, if 0 < rest.length then some 1 else none), ?_, ?_⟩
    · simp [EraseAfter, before_begin, h1]
    · simp [PopFront, h1]

/-- C10 witness: the theorem applied at the list `[7]`. -/
theorem eraseAfter_before_begin_eq_popFront_witness :
    (⟨[7], 1⟩ : SingleLinkedList ℕ).size_ ≠ 0 ∧
    (⟨[7], 1⟩ : SingleLinkedList ℕ).nodes ≠ [] ∧
    (∃ p : SingleLinkedList ℕ × Option Nat,
      EraseAfter (⟨[7], 1⟩ : SingleLinkedList ℕ)
          (before_begin (⟨[7], 1⟩ : SingleLinkedList ℕ)) = some p ∧
        PopFront (⟨[7], 1⟩ : SingleLinkedList ℕ) = some p.1) :=
  ⟨by decide, by decide,
    eraseAfter_before_begin_eq_popFront ⟨[7], 1⟩ (by decide) (by decide)⟩

end SingleLinkedList
